import Mathlib

/-!
Shallow embedding of `py3status/i3status.py` (the i3status wrapper core):
the clock-module timezone inference (`I3statusModule`), the snapshot
dispatcher (`I3status.set_responses`), the run-loop line protocol
(`I3status.run`), the native-config emitter
(`I3status.write_tmp_i3status_config`), the cleanup pass
(`clean_i3status_modules`) and the click-handler parser
(`process_onclick`).

Python exceptions are modelled with `Except PyErr`; machine time is passed
explicitly (`tNow : Nat` for `time()`, `DateTime` values for
`datetime.now()` / `datetime.now(tz)`).
-/

set_option linter.unusedVariables false

deriving instance DecidableEq for Except

namespace Py3status

/-- Python exception classes that the embedded code can raise. -/
inductive PyErr where
  | indexError (msg : String)
  | valueError (msg : String)
  | ioError (msg : String)
  deriving DecidableEq, Repr

/-- A naive `datetime.datetime` value (no tzinfo stored; the shim timezone
is carried separately, mirroring the `Tz` class). -/
structure DateTime where
  year : Nat
  month : Nat
  day : Nat
  hour : Nat
  minute : Nat
  second : Nat
  deriving DecidableEq, Repr

/-- Gregorian leap year, as Python's `calendar`/`datetime` use. -/
def isLeap (y : Nat) : Bool :=
  (y % 4 == 0 && y % 100 != 0) || y % 400 == 0

/-- Days in a month, as `datetime` validates them. -/
def daysInMonth (y m : Nat) : Nat :=
  if m == 2 then (if isLeap y then 29 else 28)
  else if m == 4 || m == 6 || m == 9 || m == 11 then 30
  else 31

/-- Days since 1970-01-01 of a civil date (Hinnant's `days_from_civil`);
this is the arithmetic behind Python `datetime` subtraction. -/
def daysFromCivil (y m d : Int) : Int :=
  let y := if m ≤ 2 then y - 1 else y
  let era := (if 0 ≤ y then y else y - 399) / 400
  let yoe := y - era * 400
  let mp := (m + 9) % 12
  let doy := (153 * mp + 2) / 5 + d - 1
  let doe := yoe * 365 + yoe / 4 - yoe / 100 + doy
  era * 146097 + doe - 719468

/-- Inverse of `daysFromCivil` (Hinnant's `civil_from_days`). -/
def civilFromDays (z : Int) : Int × Int × Int :=
  let z := z + 719468
  let era := (if 0 ≤ z then z else z - 146096) / 146097
  let doe := z - era * 146097
  let yoe := (doe - doe / 1460 + doe / 36524 - doe / 146096) / 365
  let y := yoe + era * 400
  let doy := doe - (365 * yoe + yoe / 4 - yoe / 100)
  let mp := (5 * doy + 2) / 153
  let d := doy - (153 * mp + 2) / 5 + 1
  let m := mp + (if mp < 10 then 3 else -9)
  (if m ≤ 2 then y + 1 else y, m, d)

/-- A `DateTime` as a count of seconds from the civil epoch; Python
`datetime` subtraction returns exactly this difference (as a timedelta). -/
def DateTime.toSecs (dt : DateTime) : Int :=
  daysFromCivil dt.year dt.month dt.day * 86400 +
    dt.hour * 3600 + dt.minute * 60 + dt.second

/-- Rebuild a `DateTime` from a count of seconds from the civil epoch. -/
def DateTime.ofSecs (t : Int) : DateTime :=
  let days := Int.fdiv t 86400
  let sod := (Int.fmod t 86400).toNat
  let c := civilFromDays days
  ⟨c.1.toNat, c.2.1.toNat, c.2.2.toNat, sod / 3600, sod / 60 % 60, sod % 60⟩

/-- `datetime(dt.year, dt.month, dt.day, dt.hour, dt.minute)` — the
truncation to minute both operands of the delta receive in
`set_time_zone`, measured in minutes from the epoch. -/
def DateTime.minutesTrunc (dt : DateTime) : Int :=
  daysFromCivil dt.year dt.month dt.day * 1440 + dt.hour * 60 + dt.minute

/-- Zero-pad a numeral to width 2. -/
def pad2 (n : Nat) : String :=
  if n < 10 then "0" ++ toString n else toString n

/-- Zero-pad a numeral to width 4 (`%Y`). -/
def pad4 (n : Nat) : String :=
  if n < 10 then "000" ++ toString n
  else if n < 100 then "00" ++ toString n
  else if n < 1000 then "0" ++ toString n
  else toString n

/-- `strftime` over the directives the wrapper's formats use
(`%Y %m %d %H %M %S %Z %%`); `tzLabel` is what `%Z` expands to
(the `Tz.tzname` result, or `""` for a naive datetime). -/
def strftime (fmt : String) (dt : DateTime) (tzLabel : String) : String :=
  let rec go : List Char → List Char
    | [] => []
    | '%' :: c :: rest =>
      (match c with
       | 'Y' => pad4 dt.year
       | 'm' => pad2 dt.month
       | 'd' => pad2 dt.day
       | 'H' => pad2 dt.hour
       | 'M' => pad2 dt.minute
       | 'S' => pad2 dt.second
       | 'Z' => tzLabel
       | '%' => "%"
       | c => "%".push c).toList ++ go rest
    | c :: rest => c :: go rest
  ⟨go fmt.toList⟩

/-- Accumulating worker for `pySplit` (split on whitespace runs). -/
def pySplitAux : List Char → List Char → List String
  | [], acc => if acc.isEmpty then [] else [⟨acc.reverse⟩]
  | c :: rest, acc =>
    if c.isWhitespace then
      if acc.isEmpty then pySplitAux rest []
      else ⟨acc.reverse⟩ :: pySplitAux rest []
    else pySplitAux rest (c :: acc)

/-- Python `str.split()` with no argument: split on whitespace runs,
dropping empty pieces. -/
def pySplit (s : String) : List String :=
  pySplitAux s.toList []

/-- Accumulating worker for `pySplitSpace`. -/
def splitOnSpaceAux : List Char → List Char → List String
  | [], acc => [⟨acc.reverse⟩]
  | c :: rest, acc =>
    if c = ' ' then ⟨acc.reverse⟩ :: splitOnSpaceAux rest []
    else splitOnSpaceAux rest (c :: acc)

/-- Python `str.split(' ')`: split at every single space, keeping empty
pieces. -/
def pySplitSpace (s : String) : List String :=
  splitOnSpaceAux s.toList []

/-- Python `str.startswith`. -/
def pyStartsWith (s pre : String) : Bool :=
  pre.toList.isPrefixOf s.toList

/-- Python `' '.join l`. -/
def pyJoin (l : List String) : String :=
  String.intercalate " " l

/-- Consume up to `w` further digit characters, accumulating their value. -/
def grabDigits : Nat → Nat → List Char → Nat × List Char
  | 0, acc, l => (acc, l)
  | _ + 1, acc, [] => (acc, [])
  | w + 1, acc, c :: rest =>
    if c.isDigit then grabDigits w (acc * 10 + (c.toNat - 48)) rest
    else (acc, c :: rest)

/-- Parse a numeric field of at most `w` digits (at least one), greedily;
the fixed separators of `TIME_FORMAT` are non-digits, so greedy matching
coincides with CPython's regex backtracking here. -/
def parseField (w : Nat) (l : List Char) : Option (Nat × List Char) :=
  match l with
  | c :: _ => if c.isDigit then some (grabDigits w 0 l) else none
  | [] => none

/-- Parse exactly `w` digits (CPython's `%Y` pattern is four digits). -/
def grabExact : Nat → Nat → List Char → Option (Nat × List Char)
  | 0, acc, l => some (acc, l)
  | _ + 1, _, [] => none
  | w + 1, acc, c :: rest =>
    if c.isDigit then grabExact w (acc * 10 + (c.toNat - 48)) rest
    else none

/-- Match one literal character. -/
def expectChar (c : Char) : List Char → Option (List Char)
  | d :: rest => if d = c then some rest else none
  | [] => none

/-- The string constants of the module. -/
def TIME_FORMAT : String := "%Y-%m-%d %H:%M:%S"

/-- The timezone-qualified fixed format forced on emitted clock entries. -/
def TZTIME_FORMAT : String := "%Y-%m-%d %H:%M:%S %Z"

/-- The clock-type base names. -/
def TIME_MODULES : List String := ["time", "tztime"]

/-- `datetime.strptime(s, TIME_FORMAT)` — the only strptime call the wrapper
makes. Mismatch, out-of-range fields or trailing input raise `ValueError`,
as in CPython (which also validates day-of-month and year range through the
`datetime` constructor). -/
def strptimeTimeFormat (s : String) : Except PyErr DateTime :=
  let r : Option DateTime := do
    let (y, l) ← grabExact 4 0 s.toList
    let l ← expectChar '-' l
    let (m, l) ← parseField 2 l
    let l ← expectChar '-' l
    let (d, l) ← parseField 2 l
    let l ← expectChar ' ' l
    let (h, l) ← parseField 2 l
    let l ← expectChar ':' l
    let (mi, l) ← parseField 2 l
    let l ← expectChar ':' l
    let (sec, l) ← parseField 2 l
    guard l.isEmpty
    guard (1 ≤ y ∧ 1 ≤ m ∧ m ≤ 12 ∧ 1 ≤ d ∧ d ≤ daysInMonth y m ∧
      h ≤ 23 ∧ mi ≤ 59 ∧ sec ≤ 59)
    pure ⟨y, m, d, h, mi, sec⟩
  match r with
  | some dt => .ok dt
  | none => .error (.valueError
      ("time data " ++ s ++ " does not match format " ++ TIME_FORMAT))

/-- The `Tz` shim tzinfo class: a fixed UTC offset (a whole number of
minutes, being the difference of two minute-truncated datetimes) plus the
label `tzname` returns for `%Z`. -/
structure Tz where
  name : String
  offsetMinutes : Int
  deriving DecidableEq, Repr

/-- `I3statusModule.set_time_zone`: split the wire text, take the first two
tokens as the datetime and the third as the zone label, parse, and take the
minute-truncated delta against `datetime.now()` (`localNow`). Fewer than
three tokens raise `IndexError` (before any parsing); a bad datetime raises
`ValueError`. -/
def set_time_zone (full_text : String) (localNow : DateTime) :
    Except PyErr Tz := do
  let parts := pySplit full_text
  let i3s_datetime := pyJoin (parts.take 2)
  let i3s_time_tz ← match parts[2]? with
    | some t => Except.ok t
    | none => Except.error (.indexError "list index out of range")
  let date ← strptimeTimeFormat i3s_datetime
  let delta := date.minutesTrunc - localNow.minutesTrunc
  Except.ok ⟨i3s_time_tz, delta⟩

/-- `datetime.now(tz)`: with a `Tz` argument this is UTC now shifted by the
fixed offset (an aware datetime whose `%Z` is the zone label); with `None`
it is the naive local wall-clock time (empty `%Z`). -/
def datetimeNow (tz : Option Tz) (localNow utcNow : DateTime) :
    DateTime × String :=
  match tz with
  | none => (localNow, "")
  | some z => (DateTime.ofSecs (utcNow.toSecs + z.offsetMinutes * 60), z.name)

/-- One entry object of a decoded snapshot array: the mandatory `full_text`
field plus whatever other fields the child process sent. -/
structure Item where
  full_text : String
  extra : List (String × String)
  deriving DecidableEq, Repr

/-- `I3statusModule.update_time_value`: format "now" in the inferred zone
with the user's format, compare with the currently displayed text, and
replace it when it differs; returns whether it differed. -/
def update_time_value (item : Item) (tz : Option Tz) (time_format : String)
    (localNow utcNow : DateTime) : Bool × Item :=
  let dl := datetimeNow tz localNow utcNow
  let new_value := strftime time_format dl.1 dl.2
  let updated := item.full_text != new_value
  (updated, if updated then { item with full_text := new_value } else item)

/-- A scalar configuration value (string, boolean or integer). -/
inductive CVal where
  | s (v : String)
  | b (v : Bool)
  | n (v : Nat)
  deriving DecidableEq, Repr

/-- Python `dict.get` on an association list (first binding wins, as keys
are unique in a dict). -/
def pyGet {κ α : Type} [BEq κ] (l : List (κ × α)) (k : κ) : Option α :=
  (l.find? (fun p => p.1 == k)).map (fun p => p.2)

/-- Python `dict` assignment `l[k] = v`: replace the binding if the key is
present, append it otherwise. -/
def pySet {κ α : Type} [BEq κ] : List (κ × α) → κ → α → List (κ × α)
  | [], k, v => [(k, v)]
  | (k', v') :: rest, k, v =>
    if k' == k then (k, v) :: rest else (k', v') :: pySet rest k v

/-- A module section of the parsed config: key/value settings. -/
abbrev Sect := List (String × CVal)

/-- The parsed config restricted to what the module wrapper reads: the
per-section settings dicts. -/
abbrev Cfg := List (String × Sect)

/-- First whitespace-delimited token of a section name
(`module_name.split()[0]`). -/
def baseOf (name : String) : String :=
  (pySplit name).headD ""

/-- `I3statusModule.set_time_format`: the user's configured display format
(default `TIME_FORMAT`), with `%time` substituted when `format_time` is
set. -/
def set_time_format (config : Cfg) (module_name : String) : String :=
  let sect := (pyGet config module_name).getD []
  let time_format := match pyGet sect "format" with
    | some (.s f) => f
    | _ => TIME_FORMAT
  match pyGet sect "format_time" with
  | some (.s ft) => time_format.replace "%time" ft
  | _ => time_format

/-- The mutable state of an `I3statusModule`: its name, whether it is a
clock-type module, the last item (`none` models the initial empty dict),
the inferred shim timezone, and the user's display format (only set for
clock-type modules). -/
structure ModSt where
  module_name : String
  is_time_module : Bool
  item : Option Item
  tz : Option Tz
  time_format : String
  deriving DecidableEq, Repr

/-- `I3statusModule.__init__`. -/
def mkI3statusModule (config : Cfg) (module_name : String) : ModSt :=
  let is_time := decide (baseOf module_name ∈ TIME_MODULES)
  { module_name := module_name
    is_time_module := is_time
    item := none
    tz := none
    time_format := if is_time then set_time_format config module_name else "" }

/-- `I3statusModule.update_from_item`: store the new item; for clock-type
modules, re-infer the timezone when there is none yet or when
`int(time()) % 60 != 0` (sic), then recompute the displayed time; report
whether the module changed. `tNow` is `int(time())`. -/
def update_from_item (m : ModSt) (item : Item) (tNow : Nat)
    (localNow utcNow : DateTime) : Except PyErr (Bool × ModSt) := do
  let is_updated := m.item != some item
  let m := { m with item := some item }
  if m.is_time_module then do
    let m ←
      if m.tz.isNone || tNow % 60 != 0 then do
        let tz ← set_time_zone item.full_text localNow
        pure { m with tz := some tz }
      else pure m
    let r := update_time_value item m.tz m.time_format localNow utcNow
    pure (r.1, { m with item := some r.2 })
  else
    pure (is_updated, m)

/-- The loop body of `I3status.set_responses`: walk the snapshot items by
position, look the section name up in `config['i3s_modules']` (raising
`IndexError` when the snapshot is longer), create module state lazily, run
its update, and collect the names that changed. -/
def setResponsesAux (config : Cfg) (names : List String) (tNow : Nat)
    (localNow utcNow : DateTime) :
    List Item → Nat → List (String × ModSt) → List String →
    Except PyErr (List (String × ModSt) × List String)
  | [], _, mods, updates => Except.ok (mods, updates)
  | item :: rest, index, mods, updates => do
    let conf_name ← match names[index]? with
      | some n => Except.ok n
      | none => Except.error (.indexError "list index out of range")
    let m := match pyGet mods conf_name with
      | some m => m
      | none => mkI3statusModule config conf_name
    let r ← update_from_item m item tNow localNow utcNow
    setResponsesAux config names tNow localNow utcNow rest (index + 1)
      (pySet mods conf_name r.2)
      (if r.1 then updates ++ [conf_name] else updates)

/-- `I3status.set_responses` (the iterated list is the deep copy of the
last decoded output, which in one loop iteration is the array `jsonify`
just decoded). Returns the updated module table and the list of changed
names handed to `notify_update`. -/
def set_responses (config : Cfg) (names : List String)
    (json_list : List Item) (mods : List (String × ModSt)) (tNow : Nat)
    (localNow utcNow : DateTime) :
    Except PyErr (List (String × ModSt) × List String) :=
  setResponsesAux config names tNow localNow utcNow json_list 0 mods []

/-- Python `sub in s` (substring containment). -/
def strContains (s sub : String) : Bool :=
  decide (sub.toList <:+: s.toList)

/-- The message of the `IOError` raised when i3status exits: the stderr
line when one was drained, the exit code otherwise (`I3status.run`). -/
def i3statusDiedMsg (err : String) (code : Int) : String :=
  "i3status died" ++
    (if err != "" then " and said: " ++ err else " with code " ++ toString code)

/-- An observable side effect of one run-loop iteration: a line forwarded
to the output sink (`helpers.print_line`) or a change notification
(`py3_wrapper.notify_update`). -/
inductive Action where
  | printLine (line : String)
  | notifyUpdate (names : List String)
  deriving DecidableEq, Repr

/-- The mutable fields of `I3status` the run loop touches (`last_prefix` is
called `last_sep` here). -/
structure LoopSt where
  mods : List (String × ModSt)
  last_output : Option (List Item)
  last_sep : Option String
  ready : Bool
  error : Option String
  deriving DecidableEq, Repr

/-- The environment of one run-loop iteration: the parsed config and its
sorted native-name list, the stderr line `poller_err.readline()` would
return, the child's `poll()` result, the machine clocks, and the two
helpers that live outside this source file — `jsonify` (strip the leading
separator and decode the JSON array) and the header rewrite
(`loads`/`click_events`/`dumps`), both passed in as functions. -/
structure RunEnv where
  config : Cfg
  i3s_modules : List String
  errLine : String
  pollCode : Option Int
  tNow : Nat
  localNow : DateTime
  utcNow : DateTime
  jsonify : String → String × List Item
  headerRewrite : String → String

/-- One iteration of the `I3status.run` polling loop, for the line the
primary poller returned (`""` when `readline` yielded nothing). Returns the
side effects in order, and either the new state or the Python exception the
iteration raised. -/
def runLoopBody (env : RunEnv) (line : String) (st : LoopSt) :
    List Action × Except PyErr LoopSt :=
  if line != "" then
    if pyStartsWith line "[\x7b" then
      let dec := env.jsonify line
      let st := { st with last_output := some dec.2, last_sep := some "," }
      match set_responses env.config env.i3s_modules dec.2 st.mods env.tNow
          env.localNow env.utcNow with
      | .ok r =>
        ([.printLine line, .notifyUpdate r.2],
         .ok { st with mods := r.1, ready := true })
      | .error e => ([.printLine line], .error e)
    else if !(pyStartsWith line ",") then
      let line := if strContains line "version" then env.headerRewrite line
                  else line
      ([.printLine line], .ok st)
    else
      let dec := env.jsonify line
      let st := { st with last_output := some dec.2, last_sep := some dec.1 }
      match set_responses env.config env.i3s_modules dec.2 st.mods env.tNow
          env.localNow env.utcNow with
      | .ok r => ([.notifyUpdate r.2], .ok { st with mods := r.1 })
      | .error e => ([], .error e)
  else
    match env.pollCode with
    | some code => ([], .error (.ioError (i3statusDiedMsg env.errLine code)))
    | none => ([], .ok st)

/-- The `try/except IOError` around the polling loop: an `IOError` is
stored in `self.error` as the terminal state of the run; any other
exception propagates out of `run` uncaught. -/
def runLoopBodyCaught (env : RunEnv) (line : String) (st : LoopSt) :
    List Action × Except PyErr LoopSt :=
  match runLoopBody env line st with
  | (acts, .error (.ioError msg)) => (acts, .ok { st with error := some msg })
  | r => r

/-- `I3status.i3status_module_names`. -/
def i3status_module_names : List String :=
  ["battery", "cpu_temperature", "cpu_usage", "ddate", "disk",
   "ethernet", "ipv6", "load", "path_exists", "run_watch", "time",
   "tztime", "volume", "wireless"]

/-- `I3status.valid_config_param`: with `cleanup` the always-kept names
are excluded from the valid set; without it, `general` and `order` are
also accepted. Note the split on a single space character. -/
def valid_config_param (param_name : String) (cleanup : Bool := false) :
    Bool :=
  let valid_config_params :=
    if cleanup then
      i3status_module_names.filter
        (fun x => !(["cpu_usage", "ddate", "ipv6", "load", "time"].contains x))
    else i3status_module_names ++ ["general", "order"]
  valid_config_params.contains ((pySplitSpace param_name).headD "")

/-- One value of the flat config dict: a module/general section (a dict of
settings), a list of names (`order`, `i3s_modules`, `py3_modules`,
`.group_extras`), the click table (`on_click`) or the group-membership
table (`.module_groups`). -/
inductive CEntry where
  | sec (kvs : Sect)
  | names (l : List String)
  | clicks (t : List (String × List (Int × String)))
  | groups (t : List (String × List String))
  deriving DecidableEq, Repr

/-- Python truthiness of a config value (`and conf`). -/
def CEntry.truthy : CEntry → Bool
  | .sec kvs => !kvs.isEmpty
  | .names l => !l.isEmpty
  | .clicks t => !t.isEmpty
  | .groups t => !t.isEmpty

/-- The name list of a `names` entry (`config['i3s_modules']`). -/
def CEntry.nameList : CEntry → List String
  | .names l => l
  | _ => []

/-- How `'%s'` renders a config value: booleans are lowered to
`true`/`false` first, other values print as themselves. -/
def renderCVal : CVal → String
  | .b v => if v then "true" else "false"
  | .s v => v
  | .n v => toString v

/-- One `order += "name"` line of the emitted config. -/
def orderChunk (module_name : String) : String :=
  "order += \"" ++ module_name ++ "\"\n"

/-- One `    key = "value"` line of a section block, with the fixed
timezone-qualified format forced on the `format` key of clock-type
sections (`write_tmp_i3status_config` inner loop). -/
def kvChunk (section_name key : String) (value : CVal) : String :=
  let value :=
    if baseOf section_name ∈ TIME_MODULES ∧ key = "format" then
      CVal.s TZTIME_FORMAT
    else value
  "    " ++ key ++ " = \"" ++ renderCVal value ++ "\"\n"

/-- Lexicographic `<` on code-point lists (Python's string comparison,
the key order of `sorted`). -/
def charListLt : List Char → List Char → Bool
  | [], [] => false
  | [], _ :: _ => true
  | _ :: _, [] => false
  | a :: as, b :: bs =>
    if a < b then true
    else if b < a then false
    else charListLt as bs

/-- Boolean string comparison `a <= b` used to sort the config items. -/
def strLeb (a b : String) : Bool :=
  !(charListLt b.data a.data)

/-- Insert one item into a key-sorted item list. -/
def insertByKey (p : String × CEntry) :
    List (String × CEntry) → List (String × CEntry)
  | [] => [p]
  | q :: rest =>
    if strLeb p.1 q.1 then p :: q :: rest else q :: insertByKey p rest

/-- `sorted(self.config.items())`: the items sorted by section name. -/
def sortByKey : List (String × CEntry) → List (String × CEntry)
  | [] => []
  | p :: rest => insertByKey p (sortByKey rest)

/-- The `write_in_tmpfile` calls one sorted config item contributes:
nothing for the bookkeeping keys, one `order += ...` line per valid native
name (plus a blank line) for `i3s_modules`, and a block for any other
valid, non-empty section. (A non-dict value under a module-section key
would raise in Python; such malformed configs contribute nothing here.) -/
def emitItemChunks : String × CEntry → List String
  | (section_name, conf) =>
    if ["order", "py3_modules", ".group_extras", ".module_groups"].contains
        section_name then []
    else if section_name == "i3s_modules" then
      (conf.nameList.filter (fun m => valid_config_param m)).map orderChunk
        ++ ["\n"]
    else if valid_config_param section_name && conf.truthy then
      match conf with
      | .sec kvs =>
        (section_name ++ " \x7b\n") ::
          kvs.map (fun kv => kvChunk section_name kv.1 kv.2) ++ ["\x7d\n\n"]
      | _ => []
    else []

/-- `I3status.write_tmp_i3status_config`: the sequence of texts written to
the temporary config file, one element per `write_in_tmpfile` call. -/
def write_tmp_i3status_config (config : List (String × CEntry)) :
    List String :=
  (sortByKey config).flatMap emitItemChunks

/-- The slices of the parsed config that `clean_i3status_modules` reads
and writes: the per-name settings dicts and the `order`, `.group_extras`
and `i3s_modules` lists. -/
structure CleanCfg where
  settings : Cfg
  order : List String
  group_extras : List String
  i3s_modules : List String
  deriving DecidableEq, Repr

/-- Python `not config.get(module_name)`: no settings dict, or an empty
one. -/
def noSettings (c : CleanCfg) (name : String) : Bool :=
  match pyGet c.settings name with
  | none => true
  | some kvs => kvs.isEmpty

/-- Python `dict.pop(key)` with no default on an association list: the
remaining bindings, or a `KeyError` (carrying the key) when the key is
absent. -/
def pyPop {α : Type} : List (String × α) → String →
    Except String (List (String × α))
  | [], key => .error key
  | (k, v) :: rest, key =>
    if k == key then .ok rest
    else (pyPop rest key).map (fun r => (k, v) :: r)

/-- One iteration of the `clean_i3status_modules` loop body for
`module_name`; `isOrder` selects which of the two lists the pass was
called on (`'order'` or `'.group_extras'`). The `config.pop` call can
raise `KeyError`, which propagates. -/
def cleanStep (isOrder : Bool) (c : CleanCfg) (module_name : String) :
    Except String CleanCfg :=
  if valid_config_param module_name true && noSettings c module_name then do
    let s ← pyPop c.settings module_name
    let c := { c with settings := s }
    let c :=
      if c.i3s_modules.contains module_name then
        { c with i3s_modules := c.i3s_modules.erase module_name }
      else c
    if isOrder then .ok { c with order := c.order.erase module_name }
    else .ok { c with group_extras := c.group_extras.erase module_name }
  else .ok c

/-- `clean_i3status_modules(key)`: iterate over a deep copy of the
selected list (the fold's list argument is fixed up front, exactly as the
`deepcopy` in the source arranges), conditionally removing each name; a
`KeyError` raised by a step aborts the pass. -/
def clean_i3status_modules (isOrder : Bool) (c : CleanCfg) :
    Except String CleanCfg :=
  (if isOrder then c.order else c.group_extras).foldlM (cleanStep isOrder)
    c

/-- The two cleanup calls at the end of `i3status_config_reader`. -/
def cleanupPass (c : CleanCfg) : Except String CleanCfg := do
  let c1 ← clean_i3status_modules true c
  clean_i3status_modules false c1

/-- Python `int()` on a string: optional sign then decimal digits
(surrounding whitespace stripped; digit-group underscores are not
modelled). `none` models `ValueError`. -/
def pyInt (s : String) : Option Int :=
  let digitsVal (ds : List Char) : Nat :=
    ds.foldl (fun acc c => acc * 10 + (c.toNat - 48)) 0
  let trimmed := ((s.toList.dropWhile Char.isWhitespace).reverse.dropWhile
    Char.isWhitespace).reverse
  match trimmed with
  | '-' :: ds =>
    if ds ≠ [] ∧ ds.all Char.isDigit then some (-(digitsVal ds : Int))
    else none
  | '+' :: ds =>
    if ds ≠ [] ∧ ds.all Char.isDigit then some (digitsVal ds) else none
  | ds =>
    if ds ≠ [] ∧ ds.all Char.isDigit then some (digitsVal ds) else none

/-- `process_onclick` from `i3status_config_reader`: parse the trailing
token of the `on_click` key as the button id and record the
`(group, button) → value` binding; a missing token re-raises as an
`IndexError` naming the group, a non-integer token or an id outside
`range(1, 6)` as a `ValueError` naming the group. -/
def process_onclick (key value group_name : String)
    (on_click : List (String × List (Int × String))) :
    Except PyErr (List (String × List (Int × String))) := do
  let button ← match (pySplit key)[1]? with
    | none => Except.error (.indexError
        ("missing \"button id\" for \"on_click\" parameter in group "
          ++ group_name))
    | some tok =>
      match pyInt tok with
      | none => Except.error (.valueError
          ("invalid \"button id\" for \"on_click\" parameter in group "
            ++ group_name ++ " (invalid literal for int() with base 10: "
            ++ tok ++ ")"))
      | some b =>
        if b < 1 ∨ 5 < b then
          Except.error (.valueError
            ("invalid \"button id\" for \"on_click\" parameter in group "
              ++ group_name ++ " (should be 1, 2, 3, 4 or 5)"))
        else Except.ok b
  let clicks := (pyGet on_click group_name).getD []
  Except.ok (pySet on_click group_name (pySet clicks button value))

/-! ### Helper lemmas -/

/-- Bind on a successful `Except` computation. -/
theorem except_bind_ok {ε α β : Type} (a : α) (f : α → Except ε β) :
    (Except.ok a : Except ε α) >>= f = f a := rfl

/-- Bind on a failed `Except` computation. -/
theorem except_bind_error {ε α β : Type} (e : ε) (f : α → Except ε β) :
    (Except.error e : Except ε α) >>= f = (Except.error e : Except ε β) :=
  rfl

/-- The boolean list comparison agrees with the lexicographic order. -/
theorem charListLt_iff : ∀ (a b : List Char),
    charListLt a b = true ↔ a < b := by
  intro a
  induction a with
  | nil =>
    intro b
    cases b with
    | nil =>
      refine iff_of_false (by simp [charListLt]) (fun h => ?_)
      cases h
    | cons y ys => exact iff_of_true rfl List.Lex.nil
  | cons x xs ih =>
    intro b
    cases b with
    | nil =>
      refine iff_of_false (by simp [charListLt]) (fun h => ?_)
      cases h
    | cons y ys =>
      simp only [charListLt]
      by_cases h1 : x < y
      · rw [if_pos h1]
        exact iff_of_true rfl (List.Lex.rel h1)
      · rw [if_neg h1]
        by_cases h2 : y < x
        · rw [if_pos h2]
          refine iff_of_false (by simp) (fun h => ?_)
          cases h with
          | cons h => exact absurd h2 (lt_irrefl _)
          | rel h => exact h1 h
        · rw [if_neg h2]
          have hxy : x = y := le_antisymm (not_lt.mp h2) (not_lt.mp h1)
          subst hxy
          rw [ih ys]
          constructor
          · exact fun h => List.Lex.cons h
          · intro h
            cases h with
            | cons h => exact h
            | rel h => exact absurd h h1

/-- The boolean string comparison agrees with `≤` on strings. -/
theorem strLeb_iff (a b : String) : strLeb a b = true ↔ a ≤ b := by
  show (!(charListLt b.data a.data)) = true ↔ _
  rw [Bool.not_eq_true']
  constructor
  · intro h
    by_contra hnle
    have hba : b < a := lt_of_not_le hnle
    have hlex : b.toList < a.toList := String.lt_iff_toList_lt.mp hba
    have hc := (charListLt_iff b.data a.data).mpr hlex
    rw [hc] at h
    cases h
  · intro h
    cases hc : charListLt b.data a.data
    · rfl
    · have hba : b < a :=
        String.lt_iff_toList_lt.mpr ((charListLt_iff b.data a.data).mp hc)
      exact absurd h (not_le.mpr hba)

/-- Inserting is a permutation-respecting cons. -/
theorem insertByKey_perm (p : String × CEntry)
    (l : List (String × CEntry)) :
    List.Perm (insertByKey p l) (p :: l) := by
  induction l with
  | nil => exact List.Perm.refl _
  | cons q rest ih =>
    unfold insertByKey
    by_cases h : strLeb p.1 q.1 = true
    · rw [if_pos h]
    · rw [if_neg h]
      exact (ih.cons q).trans (List.Perm.swap p q rest)

/-- Sorting the items permutes them. -/
theorem sortByKey_perm (l : List (String × CEntry)) :
    List.Perm (sortByKey l) l := by
  induction l with
  | nil => exact List.Perm.refl _
  | cons p rest ih =>
    exact (insertByKey_perm p (sortByKey rest)).trans (ih.cons p)

/-- Inserting preserves key-sortedness. -/
theorem insertByKey_sorted (p : String × CEntry)
    (l : List (String × CEntry))
    (h : List.Pairwise (fun a b : String × CEntry => a.1 ≤ b.1) l) :
    List.Pairwise (fun a b : String × CEntry => a.1 ≤ b.1)
      (insertByKey p l) := by
  induction l with
  | nil => simp [insertByKey]
  | cons q rest ih =>
    rcases List.pairwise_cons.mp h with ⟨hq, hrest⟩
    unfold insertByKey
    by_cases hle : strLeb p.1 q.1 = true
    · rw [if_pos hle]
      have hpq : p.1 ≤ q.1 := (strLeb_iff _ _).mp hle
      refine List.pairwise_cons.mpr ⟨?_, h⟩
      intro z hz
      rcases List.mem_cons.mp hz with rfl | hz
      · exact hpq
      · exact le_trans hpq (hq z hz)
    · rw [if_neg hle]
      have hqp : q.1 ≤ p.1 := by
        rcases le_total p.1 q.1 with hh | hh
        · exact absurd ((strLeb_iff _ _).mpr hh) hle
        · exact hh
      refine List.pairwise_cons.mpr ⟨?_, ih hrest⟩
      intro z hz
      have hz' : z ∈ p :: rest :=
        (insertByKey_perm p rest).mem_iff.mp hz
      rcases List.mem_cons.mp hz' with rfl | hz'
      · exact hqp
      · exact hq z hz'

/-- The sorted config items are key-sorted. -/
theorem sortByKey_sorted (l : List (String × CEntry)) :
    List.Pairwise (fun a b : String × CEntry => a.1 ≤ b.1)
      (sortByKey l) := by
  induction l with
  | nil => simp [sortByKey]
  | cons p rest ih => exact insertByKey_sorted p _ ih

/-- After `update_time_value` the displayed text always equals the freshly
formatted one (it is either replaced by it or already equal to it). -/
theorem update_time_value_full_text (it : Item) (tz : Option Tz)
    (fmt : String) (ln un : DateTime) :
    ((update_time_value it tz fmt ln un).2).full_text
      = strftime fmt (datetimeNow tz ln un).1 (datetimeNow tz ln un).2 := by
  by_cases h : it.full_text = strftime fmt (datetimeNow tz ln un).1
      (datetimeNow tz ln un).2
  · simp [update_time_value, h]
  · simp [update_time_value, h]

/-- The boolean `update_time_value` returns is exactly "the freshly
formatted text differs from the displayed one". -/
theorem update_time_value_fst (it : Item) (tz : Option Tz)
    (fmt : String) (ln un : DateTime) :
    (update_time_value it tz fmt ln un).1 = true ↔
      it.full_text ≠ strftime fmt (datetimeNow tz ln un).1
        (datetimeNow tz ln un).2 := by
  simp [update_time_value]

/-! ### C1 -/

/-- C1: for a clock-type entry, wire text `"2024-03-01 10:00:00 ZZZ"`
sampled at local wall-clock `2024-03-01 10:30` (any seconds value) infers
the fixed-offset zone `⟨ZZZ, −30 minutes⟩` (both datetimes truncated to
the minute before subtraction); with user format `%H:%M` the text emitted
at 10:30 is `"10:00"`, and formatting "now" one minute later yields
`"10:01"`, which differs, so `update_time_value` returns `true`; and in
general a change is signaled iff the newly formatted text differs from the
previously emitted text. -/
theorem C1_clock_inference_and_change_signal :
    (∀ s₁ : Nat,
      set_time_zone "2024-03-01 10:00:00 ZZZ" ⟨2024, 3, 1, 10, 30, s₁⟩
        = .ok ⟨"ZZZ", -30⟩)
    ∧ (∀ (it : Item) (ln : DateTime),
      ((update_time_value it (some ⟨"ZZZ", -30⟩) "%H:%M" ln
          ⟨2024, 3, 1, 10, 30, 0⟩).2).full_text = "10:00")
    ∧ (update_time_value ⟨"10:00", []⟩ (some ⟨"ZZZ", -30⟩) "%H:%M"
        ⟨2024, 3, 1, 10, 31, 0⟩ ⟨2024, 3, 1, 10, 31, 0⟩
        = (true, ⟨"10:01", []⟩))
    ∧ (∀ (it : Item) (tz : Option Tz) (fmt : String) (ln un : DateTime),
      (update_time_value it tz fmt ln un).1 = true ↔
        it.full_text ≠ strftime fmt (datetimeNow tz ln un).1
          (datetimeNow tz ln un).2) := by
  have hsec : ∀ s₁ : Nat,
      set_time_zone "2024-03-01 10:00:00 ZZZ" ⟨2024, 3, 1, 10, 30, s₁⟩
        = set_time_zone "2024-03-01 10:00:00 ZZZ" ⟨2024, 3, 1, 10, 30, 0⟩ :=
    fun _ => rfl
  refine ⟨fun s₁ => (hsec s₁).trans (by decide), fun it ln => ?_,
    by decide, update_time_value_fst⟩
  rw [update_time_value_full_text]
  have hdn : datetimeNow (some ⟨"ZZZ", -30⟩) ln ⟨2024, 3, 1, 10, 30, 0⟩
      = (DateTime.ofSecs
          ((DateTime.toSecs ⟨2024, 3, 1, 10, 30, 0⟩) + (-30) * 60), "ZZZ") :=
    rfl
  rw [hdn]
  decide

/-! ### C2 -/

/-- C2 (code bug): with a zone already inferred, `update_from_item`
re-infers whenever `int(time()) % 60 != 0` — snapshots at epoch seconds 61
and 62 re-infer twice within one second (the zone label/offset visibly
recomputed from the wire text each time), while at an exact minute
boundary (epoch 120) no re-inference happens even though the wire text and
the elapsed time demand one. This contradicts the claimed "at most once
per elapsed minute" cadence that the source's own comment announces. -/
theorem C2_minute_guard_eval :
    ((update_from_item ⟨"time", true, some ⟨"x", []⟩, some ⟨"OLD", 99⟩, "%H:%M"⟩
        ⟨"2024-03-01 10:00:00 ZZZ", []⟩ 61
        ⟨2024, 3, 1, 10, 30, 0⟩ ⟨2024, 3, 1, 10, 30, 0⟩).map
          (fun r => r.2.tz) = .ok (some ⟨"ZZZ", -30⟩))
    ∧ ((update_from_item ⟨"time", true, some ⟨"x", []⟩, some ⟨"ZZZ", -30⟩, "%H:%M"⟩
        ⟨"2024-03-01 10:00:00 ZZZ", []⟩ 62
        ⟨2024, 3, 1, 10, 31, 0⟩ ⟨2024, 3, 1, 10, 31, 0⟩).map
          (fun r => r.2.tz) = .ok (some ⟨"ZZZ", -31⟩))
    ∧ ((update_from_item ⟨"time", true, some ⟨"x", []⟩, some ⟨"OLD", 99⟩, "%H:%M"⟩
        ⟨"2024-03-01 10:00:00 ZZZ", []⟩ 120
        ⟨2024, 3, 1, 10, 31, 0⟩ ⟨2024, 3, 1, 10, 31, 0⟩).map
          (fun r => r.2.tz) = .ok (some ⟨"OLD", 99⟩)) := by
  refine ⟨by decide, by decide, by decide⟩

/-! ### C3 -/

/-- C3 counterexample: wire text that does not split into three tokens
makes `update_from_item` raise `IndexError` out of the update — inference
is not "skipped without raising any error out of the update". -/
theorem C3_counterexample :
    update_from_item (mkI3statusModule [] "time") ⟨"garbage", []⟩ 1
      ⟨2024, 3, 1, 10, 30, 0⟩ ⟨2024, 3, 1, 10, 30, 0⟩
      = .error (.indexError "list index out of range") := by
  decide

/-- A clock-module parse failure raised by `set_time_zone` propagates out
of the whole run-loop iteration: `update_from_item`, `set_responses` and
the loop body all re-raise it, and the `except IOError` handler does not
catch a non-`IOError` exception; by then only the `print_line` of the raw
first frame has happened. -/
theorem timeParseErrorEscapes (env : RunEnv) (line : String)
    (item : Item) (name : String) (st : LoopSt) (e : PyErr)
    (hline : pyStartsWith line "[\x7b" = true)
    (hjson : env.jsonify line = (",", [item]))
    (hnames : env.i3s_modules = [name])
    (htime : baseOf name ∈ TIME_MODULES)
    (hmods : st.mods = [])
    (hstz : set_time_zone item.full_text env.localNow = .error e)
    (hnio : ∀ m : String, e ≠ PyErr.ioError m) :
    runLoopBodyCaught env line st
      = ([Action.printLine line], .error e) := by
  have hne : line ≠ "" := by
    intro h
    subst h
    exact absurd hline (by decide)
  have hne' : (line != "") = true := bne_iff_ne.mpr hne
  have hmk : mkI3statusModule env.config name
      = { module_name := name, is_time_module := true, item := none,
          tz := none,
          time_format := set_time_format env.config name } := by
    simp [mkI3statusModule, htime]
  have hupd : update_from_item (mkI3statusModule env.config name) item
      env.tNow env.localNow env.utcNow = .error e := by
    rw [hmk]
    simp [update_from_item, hstz]
  have hsr : set_responses env.config env.i3s_modules [item] st.mods
      env.tNow env.localNow env.utcNow = .error e := by
    rw [hnames, hmods]
    simp [set_responses, setResponsesAux, pyGet, except_bind_ok,
      except_bind_error, hupd]
  have hbody : runLoopBody env line st
      = ([Action.printLine line], .error e) := by
    simp only [runLoopBody, hne', if_true, hline, hjson]
    rw [hsr]
  cases e with
  | indexError m => simp only [runLoopBodyCaught, hbody]
  | valueError m => simp only [runLoopBodyCaught, hbody]
  | ioError m => exact absurd rfl (hnio m)

/-- C3 (amended): when the wire text of a clock-type entry cannot be
parsed, `set_time_zone` raises — `IndexError` when it has fewer than
three whitespace-delimited tokens, `ValueError` when the first two tokens
are not a valid `TIME_FORMAT` datetime — and the run loop's
`except IOError` does not catch either, so the exception propagates out
of the whole iteration (only the `print_line` of the raw line has
happened), instead of the cycle being skipped gracefully with the
previous zone reused. -/
theorem C3_unparsable_wire_raises (env : RunEnv) (line : String)
    (item : Item) (name : String) (st : LoopSt)
    (hline : pyStartsWith line "[\x7b" = true)
    (hjson : env.jsonify line = (",", [item]))
    (hnames : env.i3s_modules = [name])
    (htime : baseOf name ∈ TIME_MODULES)
    (hmods : st.mods = []) :
    ((pySplit item.full_text).length < 3 →
      runLoopBodyCaught env line st
        = ([Action.printLine line],
           .error (.indexError "list index out of range")))
    ∧ (∀ (tzTok msg : String),
        (pySplit item.full_text)[2]? = some tzTok →
        strptimeTimeFormat (pyJoin ((pySplit item.full_text).take 2))
          = .error (.valueError msg) →
        runLoopBodyCaught env line st
          = ([Action.printLine line], .error (.valueError msg))) := by
  constructor
  · intro hbad
    have hstz : set_time_zone item.full_text env.localNow
        = .error (.indexError "list index out of range") := by
      have h2 : (pySplit item.full_text)[2]? = none :=
        List.getElem?_eq_none (by omega)
      simp only [set_time_zone, h2]
      rfl
    exact timeParseErrorEscapes env line item name st _ hline hjson
      hnames htime hmods hstz (fun m h => by cases h)
  · intro tzTok msg htok hdate
    have hstz : set_time_zone item.full_text env.localNow
        = .error (.valueError msg) := by
      simp only [set_time_zone, htok, hdate]
      rfl
    exact timeParseErrorEscapes env line item name st _ hline hjson
      hnames htime hmods hstz (fun m h => by cases h)

/-- A quiescent initial loop state for concrete runs. -/
def st0 : LoopSt := ⟨[], none, none, false, none⟩

/-- A concrete environment whose decoder returns a single clock item whose
wire text cannot be split into three tokens. -/
def envC3 : RunEnv :=
  ⟨[], ["time"], "", none, 1, ⟨2024, 3, 1, 10, 30, 0⟩,
   ⟨2024, 3, 1, 10, 30, 0⟩, fun _ => (",", [⟨"garbage", []⟩]), id⟩

/-- A concrete environment whose decoder returns a single clock item with
three tokens but an unparsable datetime (month 13). -/
def envC3v : RunEnv :=
  ⟨[], ["time"], "", none, 1, ⟨2024, 3, 1, 10, 30, 0⟩,
   ⟨2024, 3, 1, 10, 30, 0⟩,
   fun _ => (",", [⟨"2024-13-01 10:00:00 ZZZ", []⟩]), id⟩

/-- Witness for C3: the amended theorem applied to concrete first data
frames, one for each failure shape. -/
theorem C3_unparsable_wire_raises_witness :
    (runLoopBodyCaught envC3 "[\x7b\"full_text\": \"garbage\"\x7d]" st0
      = ([Action.printLine "[\x7b\"full_text\": \"garbage\"\x7d]"],
         .error (.indexError "list index out of range")))
    ∧ (runLoopBodyCaught envC3v
        "[\x7b\"full_text\": \"2024-13-01 10:00:00 ZZZ\"\x7d]" st0
      = ([Action.printLine
            "[\x7b\"full_text\": \"2024-13-01 10:00:00 ZZZ\"\x7d]"],
         .error (.valueError
           ("time data 2024-13-01 10:00:00 does not match format "
             ++ "%Y-%m-%d %H:%M:%S")))) :=
  ⟨(C3_unparsable_wire_raises envC3
      "[\x7b\"full_text\": \"garbage\"\x7d]" ⟨"garbage", []⟩ "time"
      st0 (by decide) rfl rfl (by decide) rfl).1 (by decide),
   (C3_unparsable_wire_raises envC3v
      "[\x7b\"full_text\": \"2024-13-01 10:00:00 ZZZ\"\x7d]"
      ⟨"2024-13-01 10:00:00 ZZZ", []⟩ "time" st0 (by decide) rfl rfl
      (by decide) rfl).2 "ZZZ"
      ("time data 2024-13-01 10:00:00 does not match format "
        ++ "%Y-%m-%d %H:%M:%S") (by decide) (by decide)⟩

/-! ### C8 -/

/-- C8 counterexample: with exit code 2 and drained stderr text
`"bad option"`, the stored message is `"i3status died and said: bad
option"` — it contains the error text but not the exit code, so the claim
that the message reports both is false. -/
theorem C8_counterexample :
    i3statusDiedMsg "bad option" 2 = "i3status died and said: bad option"
    ∧ strContains (i3statusDiedMsg "bad option" 2) "bad option" = true
    ∧ strContains (i3statusDiedMsg "bad option" 2) "2" = false := by
  refine ⟨by decide, by decide, by decide⟩

/-- C8 (amended): when the primary reader yields no line and the child has
exited, the run loop stores a terminal error built from the drained stderr
line and the exit code; its message carries the stderr text alone when the
stream was non-empty, and the exit code alone when it was empty. -/
theorem C8_dead_child_stores_error (env : RunEnv) (st : LoopSt) (code : Int)
    (hcode : env.pollCode = some code) :
    runLoopBodyCaught env "" st
      = ([], .ok { st with error := some (i3statusDiedMsg env.errLine code) })
    ∧ (env.errLine ≠ "" →
        i3statusDiedMsg env.errLine code
          = "i3status died and said: " ++ env.errLine)
    ∧ (env.errLine = "" →
        i3statusDiedMsg env.errLine code
          = "i3status died with code " ++ toString code) := by
  refine ⟨?_, fun h => ?_, fun h => ?_⟩
  · simp [runLoopBodyCaught, runLoopBody, hcode]
  · simp only [i3statusDiedMsg, bne_iff_ne, ne_eq, h, not_false_eq_true,
      if_true, ite_true, if_pos]
    rw [← String.append_assoc]
    congr 1
  · simp only [i3statusDiedMsg, h, bne_self_eq_false, if_false,
      Bool.false_eq_true, ite_false]
    rw [← String.append_assoc]
    congr 1

/-- A concrete environment for a dead child with stderr text. -/
def envC8 : RunEnv :=
  ⟨[], [], "bad option", some 2, 1, ⟨2024, 3, 1, 10, 30, 0⟩,
   ⟨2024, 3, 1, 10, 30, 0⟩, fun _ => (",", []), id⟩

/-- Witness for C8: the amended theorem applied to `envC8`. -/
theorem C8_dead_child_stores_error_witness :
    runLoopBodyCaught envC8 "" st0
      = ([], .ok { st0 with
          error := some (i3statusDiedMsg envC8.errLine 2) })
    ∧ i3statusDiedMsg envC8.errLine 2
        = "i3status died and said: bad option" :=
  ⟨(C8_dead_child_stores_error envC8 st0 2 rfl).1,
   (C8_dead_child_stores_error envC8 st0 2 rfl).2.1 (by decide)⟩

/-! ### C9 -/

/-- A concrete environment whose decoder returns the empty snapshot. -/
def envC9 : RunEnv :=
  ⟨[], [], "", none, 1, ⟨2024, 3, 1, 10, 30, 0⟩, ⟨2024, 3, 1, 10, 30, 0⟩,
   fun _ => (",", []), id⟩

/-- C9 counterexample: a comma-prefixed continuation frame is handed to
the snapshot consumer (`notify_update` fires) but no `print_line` action
occurs, so decoded continuation arrays are not forwarded to the output
sink. -/
theorem C9_counterexample :
    (runLoopBody envC9 ",[]" st0).1 = [Action.notifyUpdate []]
    ∧ ∀ s, Action.printLine s ∉ (runLoopBody envC9 ",[]" st0).1 := by
  have h1 : (runLoopBody envC9 ",[]" st0).1 = [Action.notifyUpdate []] := by
    decide
  refine ⟨h1, fun s hs => ?_⟩
  rw [h1] at hs
  simp at hs

/-- C9 (amended): only the first data frame (a line starting `[{`) is
forwarded verbatim to the output sink, and that happens before the
snapshot consumer may act — the print action heads the effect list;
comma-prefixed continuation frames reach the snapshot consumer without any
forwarding to the sink. -/
theorem C9_first_frame_printed_continuation_not (env : RunEnv)
    (line : String) (st : LoopSt) :
    (pyStartsWith line "[\x7b" = true →
      (runLoopBody env line st).1.head? = some (Action.printLine line))
    ∧ (pyStartsWith line "[\x7b" = false → pyStartsWith line "," = true →
      ∀ s, Action.printLine s ∉ (runLoopBody env line st).1) := by
  constructor
  · intro h
    have hne' : (line != "") = true := bne_iff_ne.mpr (by
      intro hh
      subst hh
      exact absurd h (by decide))
    simp only [runLoopBody, hne', if_true, h]
    split
    · rfl
    · rfl
  · intro h1 h2 s hs
    have hne' : (line != "") = true := bne_iff_ne.mpr (by
      intro hh
      subst hh
      exact absurd h2 (by decide))
    simp only [runLoopBody, hne', if_true, h1, h2, Bool.not_true,
      if_false, Bool.false_eq_true] at hs
    split at hs
    · simp at hs
    · simp at hs

/-- Witness for C9: the amended theorem applied at a concrete first frame
and a concrete continuation frame. -/
theorem C9_first_frame_printed_continuation_not_witness :
    (runLoopBody envC9 "[\x7b]" st0).1.head?
        = some (Action.printLine "[\x7b]")
    ∧ (∀ s, Action.printLine s ∉ (runLoopBody envC9 ",[]" st0).1) :=
  ⟨(C9_first_frame_printed_continuation_not envC9 "[\x7b]" st0).1
      (by decide),
   (C9_first_frame_printed_continuation_not envC9 ",[]" st0).2
      (by decide) (by decide)⟩

/-! ### C10 -/

/-- Membership after a Python dict assignment: the new binding or an old
one. -/
theorem mem_pySet {κ α : Type} [BEq κ] (p : κ × α) (l : List (κ × α))
    (k : κ) (v : α) (h : p ∈ pySet l k v) : p = (k, v) ∨ p ∈ l := by
  induction l with
  | nil =>
    simp [pySet] at h
    exact Or.inl h
  | cons q rest ih =>
    obtain ⟨k', v'⟩ := q
    by_cases hk : (k' == k) = true
    · simp only [pySet, hk, if_true] at h
      rcases List.mem_cons.mp h with h | h
      · exact Or.inl h
      · exact Or.inr (List.mem_cons_of_mem _ h)
    · simp only [pySet, hk, if_false, Bool.false_eq_true] at h
      rcases List.mem_cons.mp h with h | h
      · exact Or.inr (by simp [h])
      · rcases ih h with h' | h'
        · exact Or.inl h'
        · exact Or.inr (List.mem_cons_of_mem _ h')

/-- A successful `pyGet` returns a value stored in the list. -/
theorem pyGet_mem {κ α : Type} [BEq κ] {l : List (κ × α)} {k : κ} {v : α}
    (h : pyGet l k = some v) : ∃ k', (k', v) ∈ l := by
  unfold pyGet at h
  cases hf : l.find? (fun p => p.1 == k) with
  | none => simp [hf] at h
  | some p =>
    simp only [hf, Option.map_some] at h
    refine ⟨p.1, ?_⟩
    have hm := List.mem_of_find?_eq_some hf
    have : (p.1, v) = p := by
      cases p
      simp_all
    rwa [this]

/-- For a non-clock module, `update_from_item` never raises: it just
stores the item and reports the dict comparison. -/
theorem update_from_item_not_time (m : ModSt) (item : Item) (t : Nat)
    (ln un : DateTime) (h : m.is_time_module = false) :
    update_from_item m item t ln un
      = .ok (m.item != some item, { m with item := some item }) := by
  simp only [update_from_item, h, Bool.false_eq_true, if_false]
  rfl

/-- When the snapshot outruns the name list, the positional lookup in the
`set_responses` loop raises `IndexError` (provided no module processed on
the way is clock-typed, which could raise first). -/
theorem setResponsesAux_overflow (config : Cfg) (names : List String)
    (t : Nat) (ln un : DateTime) (items : List Item) :
    ∀ (index : Nat) (mods : List (String × ModSt)) (updates : List String),
      (∀ p ∈ mods, p.2.is_time_module = false) →
      (∀ nm ∈ names, baseOf nm ∉ TIME_MODULES) →
      index ≤ names.length → names.length < index + items.length →
      setResponsesAux config names t ln un items index mods updates
        = .error (.indexError "list index out of range") := by
  induction items with
  | nil =>
    intro index mods updates _ _ hle hlen
    simp at hlen
    omega
  | cons item rest ih =>
    intro index mods updates hmods hnames hle hlen
    rcases Nat.lt_or_ge index names.length with hidx | hidx
    · have hnm : names[index]? = some names[index] :=
        List.getElem?_eq_getElem hidx
      set nm := names[index] with hnmdef
      have hnmmem : nm ∈ names := List.getElem_mem hidx
      have hbase : (decide (baseOf nm ∈ TIME_MODULES)) = false := by
        simp [hnames nm hnmmem]
      have hmod_time : ∀ m0 : ModSt,
          (match pyGet mods nm with
           | some m => m
           | none => mkI3statusModule config nm) = m0 →
          m0.is_time_module = false := by
        intro m0 hm0
        cases hg : pyGet mods nm with
        | some m =>
          rw [hg] at hm0
          obtain ⟨k', hk'⟩ := pyGet_mem hg
          have := hmods (k', m) hk'
          simpa [← hm0] using this
        | none =>
          rw [hg] at hm0
          rw [← hm0]
          simp [mkI3statusModule, hbase]
      simp only [setResponsesAux, hnm, except_bind_ok]
      set m0 := (match pyGet mods nm with
           | some m => m
           | none => mkI3statusModule config nm) with hm0def
      have hm0 : m0.is_time_module = false := hmod_time m0 hm0def.symm
      rw [update_from_item_not_time m0 item t ln un hm0,
        except_bind_ok]
      refine ih (index + 1) (pySet mods nm { m0 with item := some item })
        _ ?_ hnames (by omega) (by simp at hlen ⊢; omega)
      intro p hp
      rcases mem_pySet p mods nm _ hp with h | h
      · rw [h]
        simpa using hm0
      · exact hmods p h
    · have hnone : names[index]? = none := List.getElem?_eq_none hidx
      simp only [setResponsesAux, hnone, except_bind_error]

/-- C10: a decoded snapshot longer than the sorted native-name list makes
`set_responses` raise `IndexError` at the excess position (stated here
with no clock-type modules in the way, whose own parsing could raise
first); and such a non-`IOError` exception is not caught by the run
loop's handler, so it propagates out of the iteration. -/
theorem C10_excess_snapshot_index_error (config : Cfg)
    (names : List String) (items : List Item)
    (mods : List (String × ModSt)) (t : Nat) (ln un : DateTime)
    (hmods : ∀ p ∈ mods, p.2.is_time_module = false)
    (hnames : ∀ nm ∈ names, baseOf nm ∉ TIME_MODULES)
    (hlen : names.length < items.length) :
    set_responses config names items mods t ln un
      = .error (.indexError "list index out of range")
    ∧ (∀ (env : RunEnv) (line : String) (st : LoopSt)
        (acts : List Action) (msg : String),
        runLoopBody env line st = (acts, .error (.indexError msg)) →
        runLoopBodyCaught env line st
          = (acts, .error (.indexError msg))) := by
  constructor
  · exact setResponsesAux_overflow config names t ln un items 0 mods []
      hmods hnames (Nat.zero_le _) (by omega)
  · intro env line st acts msg hbody
    simp [runLoopBodyCaught, hbody]

/-- Witness for C10: a two-item snapshot against the one-name list
`["load"]`. -/
theorem C10_excess_snapshot_index_error_witness :
    set_responses [] ["load"] [⟨"a", []⟩, ⟨"b", []⟩] [] 5
      ⟨2024, 3, 1, 0, 0, 0⟩ ⟨2024, 3, 1, 0, 0, 0⟩
      = .error (.indexError "list index out of range") :=
  (C10_excess_snapshot_index_error [] ["load"] [⟨"a", []⟩, ⟨"b", []⟩] [] 5
    ⟨2024, 3, 1, 0, 0, 0⟩ ⟨2024, 3, 1, 0, 0, 0⟩ (by simp)
    (by decide) (by decide)).1

/-! ### C7 -/

/-- Looking up the key just assigned in a Python dict yields the assigned
value (assignment overwrites any prior binding). -/
theorem pyGet_pySet {κ α : Type} [BEq κ] [LawfulBEq κ] (l : List (κ × α))
    (k : κ) (v : α) : pyGet (pySet l k v) k = some v := by
  induction l with
  | nil => simp [pySet, pyGet]
  | cons q rest ih =>
    obtain ⟨k', v'⟩ := q
    by_cases hk : (k' == k) = true
    · simp [pySet, hk, pyGet]
    · simp only [pySet, hk, if_false, Bool.false_eq_true]
      simpa [pyGet, List.find?, hk] using ih

/-- C7: `process_onclick` rejects a click key with no trailing token
(`IndexError` naming the group) and a token that is not an integer in
`range(1, 6)` (`ValueError` naming the group); an id 1–5 records the
`(group, button) → value` binding, overwriting any prior binding for the
same pair. -/
theorem C7_onclick_validation (key value g tok : String) (b : Int)
    (t : List (String × List (Int × String))) :
    ((pySplit key)[1]? = none →
      process_onclick key value g t = .error (.indexError
        ("missing \"button id\" for \"on_click\" parameter in group "
          ++ g)))
    ∧ ((pySplit key)[1]? = some tok → pyInt tok = none →
      process_onclick key value g t = .error (.valueError
        ("invalid \"button id\" for \"on_click\" parameter in group "
          ++ g ++ " (invalid literal for int() with base 10: " ++ tok
          ++ ")")))
    ∧ ((pySplit key)[1]? = some tok → pyInt tok = some b →
      (b < 1 ∨ 5 < b) →
      process_onclick key value g t = .error (.valueError
        ("invalid \"button id\" for \"on_click\" parameter in group "
          ++ g ++ " (should be 1, 2, 3, 4 or 5)")))
    ∧ ((pySplit key)[1]? = some tok → pyInt tok = some b →
      1 ≤ b → b ≤ 5 →
      ∃ t', process_onclick key value g t = .ok t'
        ∧ pyGet ((pyGet t' g).getD []) b = some value) := by
  refine ⟨fun h => ?_, fun h1 h2 => ?_, fun h1 h2 h3 => ?_,
    fun h1 h2 h3 h4 => ?_⟩
  · simp only [process_onclick, h]
    rfl
  · simp only [process_onclick, h1, h2]
    rfl
  · simp only [process_onclick, h1, h2, if_pos h3]
    rfl
  · simp only [process_onclick, h1, h2, if_neg (by omega : ¬(b < 1 ∨ 5 < b)),
      except_bind_ok]
    exact ⟨_, rfl, by rw [pyGet_pySet]; simp [pyGet_pySet]⟩

/-- Witness for C7: `on_click 3` binds button 3 (overwriting a prior
binding), and `on_click` with no token is rejected naming the group. -/
theorem C7_onclick_validation_witness :
    (∃ t', process_onclick "on_click 3" "cmd" "grp"
        [("grp", [(3, "old")])] = .ok t'
      ∧ pyGet ((pyGet t' "grp").getD []) 3 = some "cmd")
    ∧ process_onclick "on_click" "cmd" "grp" [] = .error (.indexError
        ("missing \"button id\" for \"on_click\" parameter in group "
          ++ "grp")) :=
  ⟨(C7_onclick_validation "on_click 3" "cmd" "grp" "3" 3
      [("grp", [(3, "old")])]).2.2.2 (by decide) (by decide) (by decide)
      (by decide),
   (C7_onclick_validation "on_click" "cmd" "grp" "3" 3 []).1 (by decide)⟩

/-! ### C4 -/

/-- A clock-type section name is none of the bookkeeping keys the emitter
skips, and is not `i3s_modules`. -/
theorem time_section_not_special (name : String)
    (htime : baseOf name ∈ TIME_MODULES) :
    (["order", "py3_modules", ".group_extras", ".module_groups"].contains
        name) = false
    ∧ (name == "i3s_modules") = false := by
  have hb : baseOf name = "time" ∨ baseOf name = "tztime" := by
    simpa [TIME_MODULES] using htime
  constructor
  · cases hc : ["order", "py3_modules", ".group_extras",
        ".module_groups"].contains name
    · rfl
    · exfalso
      have hmem : name = "order" ∨ name = "py3_modules"
          ∨ name = ".group_extras" ∨ name = ".module_groups" := by
        simpa using hc
      rcases hmem with h | h | h | h <;> subst h <;> revert hb <;> decide
  · cases hc : name == "i3s_modules"
    · rfl
    · exfalso
      have h : name = "i3s_modules" := by simpa using hc
      subst h
      revert hb
      decide

/-- C4: the emitter always writes the `format` key of a clock-type
section as the fixed timezone-qualified format, whatever value the user
configured; since the emitter is a pure reader of the config, the user's
configured value itself is untouched (it is still what `hfmt` says it
is). -/
theorem C4_forced_clock_format (config : List (String × CEntry))
    (name : String) (kvs : Sect) (v : CVal)
    (hmem : (name, CEntry.sec kvs) ∈ config)
    (htime : baseOf name ∈ TIME_MODULES)
    (hfmt : ("format", v) ∈ kvs)
    (hvalid : valid_config_param name = true) :
    (∀ v' : CVal, kvChunk name "format" v'
        = "    format = \"" ++ TZTIME_FORMAT ++ "\"\n")
    ∧ ("    format = \"" ++ TZTIME_FORMAT ++ "\"\n")
        ∈ write_tmp_i3status_config config := by
  obtain ⟨hskip, hne_i3s⟩ := time_section_not_special name htime
  have hchunk : ∀ v' : CVal, kvChunk name "format" v'
      = "    format = \"" ++ TZTIME_FORMAT ++ "\"\n" := by
    intro v'
    unfold kvChunk
    rw [if_pos (⟨htime, rfl⟩ : baseOf name ∈ TIME_MODULES
      ∧ "format" = "format")]
    rfl
  refine ⟨hchunk, ?_⟩
  have hmem' : (name, CEntry.sec kvs) ∈ sortByKey config :=
    (sortByKey_perm config).mem_iff.mpr hmem
  have hempty : kvs.isEmpty = false := by
    cases kvs with
    | nil => exact absurd hfmt (List.not_mem_nil _)
    | cons a l => rfl
  have hemit : emitItemChunks (name, CEntry.sec kvs)
      = (name ++ " \x7b\n") ::
          (kvs.map (fun kv => kvChunk name kv.1 kv.2) ++ ["\x7d\n\n"]) := by
    simp only [emitItemChunks, hskip, hne_i3s, hvalid, CEntry.truthy,
      hempty, Bool.not_false, Bool.and_self, if_false, if_true,
      Bool.false_eq_true, ite_false, ite_true]
    exact List.cons_append _ _ _
  apply List.mem_flatMap.mpr
  refine ⟨(name, CEntry.sec kvs), hmem', ?_⟩
  rw [hemit, ← hchunk v]
  exact List.mem_cons_of_mem _
    (List.mem_append_left _ (List.mem_map_of_mem _ hfmt))

/-- A concrete parsed config with one clock entry, as
`i3status_config_reader` lays it out. -/
def cfgEx : List (String × CEntry) :=
  [("general", .sec [("colors", .b false), ("interval", .n 5)]),
   ("order", .names ["time"]),
   ("i3s_modules", .names ["time"]),
   ("py3_modules", .names []),
   ("on_click", .clicks []),
   (".group_extras", .names []),
   (".module_groups", .groups []),
   ("time", .sec [("format", .s "%H:%M")])]

/-- Witness for C4: in `cfgEx` the user configured `%H:%M`, yet the
emitted config carries the fixed timezone-qualified format. -/
theorem C4_forced_clock_format_witness :
    (kvChunk "time" "format" (CVal.s "%H:%M")
        = "    format = \"" ++ TZTIME_FORMAT ++ "\"\n")
    ∧ ("    format = \"" ++ TZTIME_FORMAT ++ "\"\n")
        ∈ write_tmp_i3status_config cfgEx :=
  ⟨(C4_forced_clock_format cfgEx "time" [("format", .s "%H:%M")]
      (.s "%H:%M") (by decide) (by decide) (by decide) (by decide)).1
      (CVal.s "%H:%M"),
   (C4_forced_clock_format cfgEx "time" [("format", .s "%H:%M")]
      (.s "%H:%M") (by decide) (by decide) (by decide) (by decide)).2⟩

/-! ### C5 -/

/-- Whether a config value is a section dict. -/
def CEntry.isSec : CEntry → Bool
  | .sec _ => true
  | _ => false

/-- The section names whose blocks the emitter writes, in emission order
(the guards mirror `emitItemChunks`). -/
def emittedBlockNames (config : List (String × CEntry)) : List String :=
  ((sortByKey config).filter (fun p =>
      !(["order", "py3_modules", ".group_extras",
         ".module_groups"].contains p.1)
      && !(p.1 == "i3s_modules")
      && (valid_config_param p.1 && p.2.truthy)
      && p.2.isSec)).map (fun p => p.1)

/-- Counting occurrences distributes over `flatMap`. -/
theorem count_flatMap {α β : Type} [BEq β] (l : List α) (f : α → List β)
    (b : β) :
    (l.flatMap f).count b = (l.map (fun a => (f a).count b)).sum := by
  induction l with
  | nil => simp
  | cons x xs ih => simp [List.flatMap_cons, List.count_append, ih]

/-- An order line starts with the character `o`. -/
theorem orderChunk_head (m : String) :
    (orderChunk m).data.head? = some 'o' := rfl

/-- An order line's second-to-last character is the closing quote. -/
theorem orderChunk_rev (m : String) :
    (orderChunk m).data.reverse[1]? = some '\"' := by
  have h : (orderChunk m).data
      = ("order += \"".data ++ m.data) ++ ['\"', '\n'] := rfl
  rw [h, List.reverse_append,
    show (['\"', '\n'] : List Char).reverse = ['\n', '\"'] from rfl]
  simp

/-- A block-header chunk's second-to-last character is the open brace. -/
theorem header_rev (nm : String) :
    (nm ++ " \x7b\n").data.reverse[1]? = some '\x7b' := by
  have h : (nm ++ " \x7b\n").data = nm.data ++ [' ', '\x7b', '\n'] := rfl
  rw [h, List.reverse_append,
    show ([' ', '\x7b', '\n'] : List Char).reverse = ['\n', '\x7b', ' ']
      from rfl]
  simp

/-- A key/value chunk starts with a space. -/
theorem kvChunk_head (nm k : String) (v : CVal) :
    (kvChunk nm k v).data.head? = some ' ' := by
  unfold kvChunk
  split <;> rfl

/-- `orderChunk` is injective. -/
theorem orderChunk_inj : Function.Injective orderChunk := by
  intro a b h
  have h' : ("order += \"".data ++ a.data) ++ ['\"', '\n']
      = ("order += \"".data ++ b.data) ++ ['\"', '\n'] :=
    congrArg String.data h
  have h2 := List.append_cancel_right h'
  have h3 := List.append_cancel_left h2
  cases a
  cases b
  exact congrArg String.mk h3

/-- Chunks from a key other than `i3s_modules` contain no order line. -/
theorem count_orderChunk_other (p : String × CEntry) (m : String)
    (hne : (p.1 == "i3s_modules") = false) :
    (emitItemChunks p).count (orderChunk m) = 0 := by
  obtain ⟨nm, e⟩ := p
  simp only at hne
  rw [List.count_eq_zero]
  intro hmem
  simp only [emitItemChunks] at hmem
  cases h1 : ["order", "py3_modules", ".group_extras",
      ".module_groups"].contains nm with
  | true =>
    rw [h1] at hmem
    simp at hmem
  | false =>
    rw [h1, hne] at hmem
    cases h2 : valid_config_param nm && e.truthy with
    | false =>
      rw [h2] at hmem
      simp at hmem
    | true =>
      rw [h2] at hmem
      cases e with
      | sec kvs =>
        simp only [Bool.false_eq_true, if_false, if_true, ite_true,
          ite_false] at hmem
        rcases List.mem_cons.mp hmem with h | h
        · have h5 : (orderChunk m).data.reverse[1]?
              = (nm ++ " \x7b\n").data.reverse[1]? := by rw [h]
          rw [orderChunk_rev, header_rev] at h5
          exact absurd h5 (by decide)
        · rcases List.mem_append.mp h with h | h
          · obtain ⟨kv, hkv, hkveq⟩ := List.mem_map.mp h
            have h5 : (orderChunk m).data.head?
                = (kvChunk nm kv.1 kv.2).data.head? := by rw [hkveq]
            rw [orderChunk_head, kvChunk_head] at h5
            exact absurd h5 (by decide)
          · have h := List.mem_singleton.mp h
            have h5 : (orderChunk m).data.head?
                = ("\x7d\n\n" : String).data.head? := by rw [h]
            rw [orderChunk_head] at h5
            exact absurd h5 (by decide)
      | names l =>
        simp at hmem
      | clicks t =>
        simp at hmem
      | groups t =>
        simp at hmem

/-- The `i3s_modules` key emits exactly one order line per valid native
name. -/
theorem count_orderChunk_i3s (l : List String) (m : String) (hnd : l.Nodup)
    (hm : m ∈ l) (hv : valid_config_param m = true) :
    (emitItemChunks ("i3s_modules", CEntry.names l)).count (orderChunk m)
      = 1 := by
  have hred : emitItemChunks ("i3s_modules", CEntry.names l)
      = ((l.filter (fun x => valid_config_param x)).map orderChunk)
          ++ ["\n"] := by
    simp [emitItemChunks, CEntry.nameList]
  rw [hred, List.count_append]
  have h1 : ((l.filter (fun x => valid_config_param x)).map
      orderChunk).count (orderChunk m) = 1 := by
    rw [List.count_map_of_injective _ _ orderChunk_inj]
    exact List.count_eq_one_of_mem (hnd.filter _)
      (List.mem_filter.mpr ⟨hm, hv⟩)
  have h2 : (["\n"] : List String).count (orderChunk m) = 0 := by
    rw [List.count_eq_zero]
    intro hmem
    have h := List.mem_singleton.mp hmem
    have h5 : (orderChunk m).data.head? = ("\n" : String).data.head? := by
      rw [h]
    rw [orderChunk_head] at h5
    exact absurd h5 (by decide)
  rw [h1, h2]

/-- With unique keys, two entries sharing a key are the same entry. -/
theorem keys_nodup_eq {α : Type} {l : List (String × α)}
    (h : (l.map Prod.fst).Nodup) {p q : String × α} (hp : p ∈ l)
    (hq : q ∈ l) (hfst : p.1 = q.1) : p = q :=
  List.inj_on_of_nodup_map h hp hq hfst

/-- Summing the order-line counts over the config items gives one. -/
theorem sum_counts_orderChunk (l : List String) (m : String)
    (hnd : l.Nodup) (hm : m ∈ l) (hv : valid_config_param m = true) :
    ∀ (config : List (String × CEntry)),
      (config.map Prod.fst).Nodup →
      ("i3s_modules", CEntry.names l) ∈ config →
      (config.map
        (fun p => (emitItemChunks p).count (orderChunk m))).sum = 1 := by
  intro config
  induction config with
  | nil => intro _ h; cases h
  | cons p rest ih =>
    intro hkeys hmem
    have hkeys' : (rest.map Prod.fst).Nodup :=
      (List.nodup_cons.mp (by simpa using hkeys)).2
    rcases List.mem_cons.mp hmem with heq | hmem'
    · rw [List.map_cons, List.sum_cons, ← heq]
      have hzero : (rest.map
          (fun q => (emitItemChunks q).count (orderChunk m))).sum = 0 := by
        apply List.sum_eq_zero
        intro x hx
        obtain ⟨q, hq, hqx⟩ := List.mem_map.mp hx
        have hqne : (q.1 == "i3s_modules") = false := by
          have hnotin : p.1 ∉ rest.map Prod.fst :=
            (List.nodup_cons.mp (by simpa using hkeys)).1
          rw [← heq] at hnotin
          cases hb : q.1 == "i3s_modules"
          · rfl
          · exfalso
            have hq1 : q.1 = "i3s_modules" := by simpa using hb
            have hmm2 := List.mem_map_of_mem Prod.fst hq
            rw [hq1] at hmm2
            exact hnotin hmm2
        rw [← hqx]
        exact count_orderChunk_other q m hqne
      rw [hzero, count_orderChunk_i3s l m hnd hm hv]
    · have hpne : (p.1 == "i3s_modules") = false := by
        have hnotin : p.1 ∉ rest.map Prod.fst :=
          (List.nodup_cons.mp (by simpa using hkeys)).1
        cases hb : p.1 == "i3s_modules"
        · rfl
        · exfalso
          have hp1 : p.1 = "i3s_modules" := by simpa using hb
          have hmm2 := List.mem_map_of_mem Prod.fst hmem'
          rw [hp1] at hnotin
          exact hnotin hmm2
      rw [List.map_cons, List.sum_cons,
        count_orderChunk_other p m hpne, ih hkeys' hmem']

/-- C5 counterexample: in `cfgEx` the emitter writes the `general` block
(chunk 0) before the single `order += "time"` line (chunk 4), so the
order lines are not all placed before the section blocks; they sit where
the `i3s_modules` key falls in the sorted key order. -/
theorem C5_counterexample :
    write_tmp_i3status_config cfgEx
      = ["general \x7b\n", "    colors = \"false\"\n",
         "    interval = \"5\"\n", "\x7d\n\n", orderChunk "time", "\n",
         "time \x7b\n", "    format = \"%Y-%m-%d %H:%M:%S %Z\"\n",
         "\x7d\n\n"]
    ∧ ∃ i j : Nat, i < j
      ∧ (write_tmp_i3status_config cfgEx)[i]? = some "general \x7b\n"
      ∧ (write_tmp_i3status_config cfgEx)[j]? = some (orderChunk "time") :=
  ⟨by decide, 0, 4, by decide, by decide, by decide⟩

/-- C5 (amended): the emitter writes exactly one `order += "name"` line
per native entry, the section blocks appear in lexicographic order of
section name, and booleans render lowercase; but the order lines are not
all placed before the blocks — they are written where the `i3s_modules`
key falls in the lexicographic ordering of all config keys (blocks of
sections sorting earlier, such as `general`, precede them; see
`C5_counterexample`). -/
theorem C5_emitter_layout (config : List (String × CEntry))
    (l : List String) (m : String)
    (hkeys : (config.map Prod.fst).Nodup)
    (hl : ("i3s_modules", CEntry.names l) ∈ config)
    (hnd : l.Nodup) (hm : m ∈ l) (hv : valid_config_param m = true) :
    (write_tmp_i3status_config config).count (orderChunk m) = 1
    ∧ List.Sorted (fun a b : String => a ≤ b) (emittedBlockNames config)
    ∧ renderCVal (CVal.b true) = "true"
    ∧ renderCVal (CVal.b false) = "false" := by
  refine ⟨?_, ?_, rfl, rfl⟩
  · unfold write_tmp_i3status_config
    rw [count_flatMap]
    have hperm : List.Perm (sortByKey config) config := sortByKey_perm config
    have hperm2 : List.Perm
        ((sortByKey config).map
          (fun p => (emitItemChunks p).count (orderChunk m)))
        (config.map (fun p => (emitItemChunks p).count (orderChunk m))) :=
      hperm.map _
    rw [hperm2.sum_eq]
    exact sum_counts_orderChunk l m hnd hm hv config hkeys hl
  · have hs : List.Pairwise (fun p q : String × CEntry => p.1 ≤ q.1)
        (sortByKey config) := sortByKey_sorted config
    unfold emittedBlockNames
    exact (hs.filter _).map _ (fun a b h => h)

/-- Witness for C5: the amended layout statement applied to `cfgEx`. -/
theorem C5_emitter_layout_witness :
    (write_tmp_i3status_config cfgEx).count (orderChunk "time") = 1
    ∧ List.Sorted (fun a b : String => a ≤ b) (emittedBlockNames cfgEx)
    ∧ renderCVal (CVal.b true) = "true"
    ∧ renderCVal (CVal.b false) = "false" :=
  C5_emitter_layout cfgEx ["time"] "time" (by decide) (by decide)
    (by decide) (by decide) (by decide)

/-! ### C6 -/

/-- The chunks emitted for the `i3s_modules` key. -/
theorem emitItemChunks_i3s (l : List String) :
    emitItemChunks ("i3s_modules", CEntry.names l)
      = ((l.filter (fun x => valid_config_param x)).map orderChunk)
          ++ ["\n"] := by
  simp [emitItemChunks, CEntry.nameList]

/-- A present key can be popped. -/
theorem pyPop_ok_of_isSome {α : Type} (l : List (String × α)) (k : String)
    (h : (pyGet l k).isSome = true) : ∃ r, pyPop l k = .ok r := by
  induction l with
  | nil => simp [pyGet] at h
  | cons q rest ih =>
    obtain ⟨k', v'⟩ := q
    by_cases hk : (k' == k) = true
    · exact ⟨rest, by simp [pyPop, hk]⟩
    · have h' : (pyGet rest k).isSome = true := by
        unfold pyGet at h ⊢
        rwa [List.find?_cons_of_neg _ (by simp [hk])] at h
      obtain ⟨r, hr⟩ := ih h'
      refine ⟨(k', v') :: r, ?_⟩
      simp only [pyPop, hk, if_false, Bool.false_eq_true, hr]
      rfl

/-- A successful pop of another key leaves a lookup unchanged. -/
theorem pyPop_ne {α : Type} {l : List (String × α)} {k : String}
    {r : List (String × α)} (hr : pyPop l k = .ok r) (n : String)
    (h : n ≠ k) : pyGet r n = pyGet l n := by
  induction l generalizing r with
  | nil => simp [pyPop] at hr
  | cons q rest ih =>
    obtain ⟨k', v'⟩ := q
    by_cases hk : (k' == k) = true
    · simp only [pyPop, hk, if_true] at hr
      have hreq : rest = r := by simpa using hr
      subst hreq
      have hk' : k' = k := by simpa using hk
      have hkn : (k' == n) = false := by
        cases hb : k' == n
        · rfl
        · exact absurd (((by simpa using hb : k' = n)).symm.trans hk') h
      unfold pyGet
      rw [List.find?_cons_of_neg _ (by simp [hkn])]
    · simp only [pyPop, hk, if_false, Bool.false_eq_true] at hr
      cases hp : pyPop rest k with
      | error e =>
        rw [hp] at hr
        simp [Except.map] at hr
      | ok r' =>
        rw [hp] at hr
        have hreq : (k', v') :: r' = r := by
          simpa [Except.map] using hr
        subst hreq
        by_cases hn : (k' == n) = true
        · unfold pyGet
          rw [List.find?_cons_of_pos _ (by simp [hn]),
            List.find?_cons_of_pos _ (by simp [hn])]
        · unfold pyGet at ih ⊢
          rw [List.find?_cons_of_neg _ (by simp [hn]),
            List.find?_cons_of_neg _ (by simp [hn])]
          exact ih hp

/-- A successful pop yields a sublist. -/
theorem pyPop_sublist {α : Type} {l : List (String × α)} {k : String}
    {r : List (String × α)} (hr : pyPop l k = .ok r) :
    List.Sublist r l := by
  induction l generalizing r with
  | nil => simp [pyPop] at hr
  | cons q rest ih =>
    obtain ⟨k', v'⟩ := q
    by_cases hk : (k' == k) = true
    · simp only [pyPop, hk, if_true] at hr
      have hreq : rest = r := by simpa using hr
      subst hreq
      exact List.sublist_cons_self _ _
    · simp only [pyPop, hk, if_false, Bool.false_eq_true] at hr
      cases hp : pyPop rest k with
      | error e =>
        rw [hp] at hr
        simp [Except.map] at hr
      | ok r' =>
        rw [hp] at hr
        have hreq : (k', v') :: r' = r := by
          simpa [Except.map] using hr
        subst hreq
        exact (ih hp).cons₂ _

/-- A key absent from the key list looks up to nothing. -/
theorem pyGet_eq_none_of_not_mem {α : Type} (l : List (String × α))
    (k : String) (h : k ∉ l.map Prod.fst) : pyGet l k = none := by
  induction l with
  | nil => rfl
  | cons q rest ih =>
    simp only [List.map_cons, List.mem_cons] at h
    push_neg at h
    have hqk : (q.1 == k) = false := by
      cases hb : q.1 == k
      · rfl
      · exact absurd ((by simpa using hb : q.1 = k)).symm h.1
    unfold pyGet
    rw [List.find?_cons_of_neg _ (by simp [hqk])]
    exact ih h.2

/-- With unique keys, a successful pop removes the binding entirely. -/
theorem pyPop_self {α : Type} {l : List (String × α)} {k : String}
    {r : List (String × α)} (hr : pyPop l k = .ok r)
    (h : (l.map Prod.fst).Nodup) : pyGet r k = none := by
  induction l generalizing r with
  | nil => simp [pyPop] at hr
  | cons q rest ih =>
    obtain ⟨k', v'⟩ := q
    simp only [List.map_cons, List.nodup_cons] at h
    by_cases hk : (k' == k) = true
    · simp only [pyPop, hk, if_true] at hr
      have hreq : rest = r := by simpa using hr
      subst hreq
      have hk' : k' = k := by simpa using hk
      subst hk'
      exact pyGet_eq_none_of_not_mem rest k' h.1
    · simp only [pyPop, hk, if_false, Bool.false_eq_true] at hr
      cases hp : pyPop rest k with
      | error e =>
        rw [hp] at hr
        simp [Except.map] at hr
      | ok r' =>
        rw [hp] at hr
        have hreq : (k', v') :: r' = r := by
          simpa [Except.map] using hr
        subst hreq
        unfold pyGet
        rw [List.find?_cons_of_neg _ (by simp [hk])]
        exact ih hp h.2

/-- The state a successful removal step produces. -/
def cleanStepApply (isOrder : Bool) (c : CleanCfg) (s : Cfg)
    (module_name : String) : CleanCfg :=
  { settings := s
    order := if isOrder then c.order.erase module_name else c.order
    group_extras := if isOrder then c.group_extras
                    else c.group_extras.erase module_name
    i3s_modules := if c.i3s_modules.contains module_name
                   then c.i3s_modules.erase module_name
                   else c.i3s_modules }

/-- The clean-step result when the removal condition holds and the pop
succeeds. -/
theorem cleanStep_eq_of_cond (b : Bool) (c : CleanCfg) (mn : String)
    (r : Cfg) (h : (valid_config_param mn true && noSettings c mn) = true)
    (hr : pyPop c.settings mn = .ok r) :
    cleanStep b c mn = .ok (cleanStepApply b c r mn) := by
  unfold cleanStep cleanStepApply
  rw [if_pos h, hr, except_bind_ok]
  dsimp only
  cases hb : c.i3s_modules.contains mn <;> cases b <;> rfl

/-- The clean-step result when the removal condition fails. -/
theorem cleanStep_eq_of_not_cond (b : Bool) (c : CleanCfg) (mn : String)
    (h : (valid_config_param mn true && noSettings c mn) = false) :
    cleanStep b c mn = .ok c := by
  unfold cleanStep
  rw [h]
  rfl

/-- One clean pass, analysed in full: given unique keys and lists, and a
settings binding for every name of the iterated copy, the pass succeeds;
lookups of names outside the copy are untouched; uniqueness, emptiness of
the target name's settings and non-membership facts are preserved; the
list the pass was not called on is untouched; and a copy member
satisfying the removal condition ends up outside the selected list and
outside `i3s_modules`. -/
theorem cleanFoldE (b : Bool) (n : String) (copy : List String) :
    ∀ c : CleanCfg,
      copy.Nodup →
      (∀ m ∈ copy, (pyGet c.settings m).isSome = true) →
      (c.settings.map Prod.fst).Nodup →
      c.order.Nodup → c.group_extras.Nodup → c.i3s_modules.Nodup →
      ∃ c', List.foldlM (cleanStep b) c copy = .ok c'
        ∧ (∀ m, m ∉ copy → pyGet c'.settings m = pyGet c.settings m)
        ∧ (c'.settings.map Prod.fst).Nodup
        ∧ (noSettings c n = true → noSettings c' n = true)
        ∧ (n ∉ c.order → n ∉ c'.order)
        ∧ (n ∉ c.group_extras → n ∉ c'.group_extras)
        ∧ (n ∉ c.i3s_modules → n ∉ c'.i3s_modules)
        ∧ c'.order.Nodup ∧ c'.group_extras.Nodup ∧ c'.i3s_modules.Nodup
        ∧ (b = true → c'.group_extras = c.group_extras)
        ∧ (b = false → c'.order = c.order)
        ∧ (valid_config_param n true = true → noSettings c n = true →
            n ∈ copy →
            (b = true → n ∉ c'.order)
            ∧ (b = false → n ∉ c'.group_extras)
            ∧ n ∉ c'.i3s_modules) := by
  induction copy with
  | nil =>
    intro c _ _ h1 h2 h3 h4
    exact ⟨c, rfl, fun m _ => rfl, h1, fun h => h, fun h => h,
      fun h => h, fun h => h, h2, h3, h4, fun _ => rfl, fun _ => rfl,
      fun _ _ hmem => absurd hmem (List.not_mem_nil n)⟩
  | cons mn rest ih =>
    intro c hnd hkeys hsnd hond hxnd hind
    rcases List.nodup_cons.mp hnd with ⟨hmn_rest, hnd_rest⟩
    by_cases hc : (valid_config_param mn true && noSettings c mn) = true
    · have hsome : (pyGet c.settings mn).isSome = true :=
        hkeys mn (List.mem_cons_self mn rest)
      obtain ⟨r, hr⟩ := pyPop_ok_of_isSome c.settings mn hsome
      have hstep := cleanStep_eq_of_cond b c mn r hc hr
      set c1 := cleanStepApply b c r mn with hc1
      have hs1 : c1.settings = r := rfl
      have hget1 : ∀ m, m ≠ mn →
          pyGet c1.settings m = pyGet c.settings m := by
        intro m hm
        rw [hs1]
        exact pyPop_ne hr m hm
      have hsnd1 : (c1.settings.map Prod.fst).Nodup := by
        rw [hs1]
        exact hsnd.sublist ((pyPop_sublist hr).map Prod.fst)
      have hns1 : noSettings c n = true → noSettings c1 n = true := by
        intro hn
        unfold noSettings at hn ⊢
        by_cases hmn : n = mn
        · subst hmn
          rw [hs1, pyPop_self hr hsnd]
        · rw [hget1 n hmn]
          exact hn
      have hord1 : n ∉ c.order → n ∉ c1.order := by
        intro h hm
        rw [hc1] at hm
        unfold cleanStepApply at hm
        cases b <;> simp only [if_true, if_false, Bool.false_eq_true,
          ite_true, ite_false] at hm
        · exact h hm
        · exact h (List.erase_subset _ _ hm)
      have hext1 : n ∉ c.group_extras → n ∉ c1.group_extras := by
        intro h hm
        rw [hc1] at hm
        unfold cleanStepApply at hm
        cases b <;> simp only [if_true, if_false, Bool.false_eq_true,
          ite_true, ite_false] at hm
        · exact h (List.erase_subset _ _ hm)
        · exact h hm
      have hi3s1 : n ∉ c.i3s_modules → n ∉ c1.i3s_modules := by
        intro h hm
        rw [hc1] at hm
        unfold cleanStepApply at hm
        cases hb : c.i3s_modules.contains mn <;>
          simp only [hb, if_true, if_false, Bool.false_eq_true, ite_true,
            ite_false] at hm
        · exact h hm
        · exact h (List.erase_subset _ _ hm)
      have hond1 : c1.order.Nodup := by
        rw [hc1]
        unfold cleanStepApply
        cases b <;> simp only [if_true, if_false, Bool.false_eq_true,
          ite_true, ite_false]
        · exact hond
        · exact hond.erase mn
      have hxnd1 : c1.group_extras.Nodup := by
        rw [hc1]
        unfold cleanStepApply
        cases b <;> simp only [if_true, if_false, Bool.false_eq_true,
          ite_true, ite_false]
        · exact hxnd.erase mn
        · exact hxnd
      have hind1 : c1.i3s_modules.Nodup := by
        rw [hc1]
        unfold cleanStepApply
        cases hb : c.i3s_modules.contains mn <;>
          simp only [hb, if_true, if_false, Bool.false_eq_true, ite_true,
            ite_false]
        · exact hind
        · exact hind.erase mn
      have hkeys1 : ∀ m ∈ rest, (pyGet c1.settings m).isSome = true := by
        intro m hm
        have hmne : m ≠ mn := by
          intro hh
          subst hh
          exact hmn_rest hm
        rw [hget1 m hmne]
        exact hkeys m (List.mem_cons_of_mem mn hm)
      obtain ⟨c', hfold, g1, g2, g3, g4, g5, g6, g7, g8, g9, g10, g11,
        g12⟩ := ih c1 hnd_rest hkeys1 hsnd1 hond1 hxnd1 hind1
      refine ⟨c', ?_, ?_, g2, ?_, ?_, ?_, ?_, g7, g8, g9, ?_, ?_, ?_⟩
      · rw [List.foldlM_cons, hstep, except_bind_ok]
        exact hfold
      · intro m hm
        have hmne : m ≠ mn := by
          intro hh
          apply hm
          rw [hh]
          exact List.mem_cons_self mn rest
        have hmrest : m ∉ rest := fun hh =>
          hm (List.mem_cons_of_mem mn hh)
        rw [g1 m hmrest, hget1 m hmne]
      · exact fun h => g3 (hns1 h)
      · exact fun h => g4 (hord1 h)
      · exact fun h => g5 (hext1 h)
      · exact fun h => g6 (hi3s1 h)
      · intro hb
        rw [g10 hb, hc1]
        unfold cleanStepApply
        subst hb
        rfl
      · intro hb
        rw [g11 hb, hc1]
        unfold cleanStepApply
        subst hb
        rfl
      · intro hv hns hmem
        by_cases heq : n = mn
        · subst heq
          have hout_sel_true : b = true → n ∉ c1.order := by
            intro hb
            subst hb
            rw [hc1]
            unfold cleanStepApply
            simp only [if_true, ite_true]
            intro hm
            exact absurd rfl (hond.mem_erase_iff.mp hm).1
          have hout_sel_false : b = false → n ∉ c1.group_extras := by
            intro hb
            subst hb
            rw [hc1]
            unfold cleanStepApply
            simp only [Bool.false_eq_true, if_false, ite_false]
            intro hm
            exact absurd rfl (hxnd.mem_erase_iff.mp hm).1
          have hout_i3s : n ∉ c1.i3s_modules := by
            rw [hc1]
            unfold cleanStepApply
            cases hb : c.i3s_modules.contains n <;>
              simp only [hb, if_true, if_false, Bool.false_eq_true,
                ite_true, ite_false]
            · intro hm
              have hct : c.i3s_modules.contains n = true :=
                List.elem_eq_true_of_mem hm
              rw [hb] at hct
              cases hct
            · intro hm
              exact absurd rfl (hind.mem_erase_iff.mp hm).1
          exact ⟨fun hb => g4 (hout_sel_true hb),
            fun hb => g5 (hout_sel_false hb), g6 hout_i3s⟩
        · have hrest : n ∈ rest := by
            rcases List.mem_cons.mp hmem with h | h
            · exact absurd h heq
            · exact h
          exact g12 hv (hns1 hns) hrest
    · have hstep := cleanStep_eq_of_not_cond b c mn
        (Bool.not_eq_true _ |>.mp hc)
      obtain ⟨c', hfold, g1, g2, g3, g4, g5, g6, g7, g8, g9, g10, g11,
        g12⟩ := ih c hnd_rest
        (fun m hm => hkeys m (List.mem_cons_of_mem mn hm)) hsnd hond
        hxnd hind
      refine ⟨c', ?_, ?_, g2, g3, g4, g5, g6, g7, g8, g9, g10, g11, ?_⟩
      · rw [List.foldlM_cons, hstep, except_bind_ok]
        exact hfold
      · exact fun m hm => g1 m (fun hh => hm (List.mem_cons_of_mem mn hh))
      · intro hv hns hmem
        by_cases heq : n = mn
        · exfalso
          apply hc
          rw [← heq, hv, hns]
          rfl
        · have hrest : n ∈ rest := by
            rcases List.mem_cons.mp hmem with h | h
            · exact absurd h heq
            · exact h
          exact g12 hv hns hrest

/-- C6 counterexample: `ddate` is a native entry with no settings whose
base name is outside the claimed always-kept set
`{time, load, cpu usage, date, ipv6}`, yet the cleanup pass keeps it in
`order` and in the native-name set — the code's kept set is
`{time, load, cpu_usage, ddate, ipv6}`. -/
theorem C6_counterexample :
    baseOf "ddate" ∈ i3status_module_names
    ∧ baseOf "ddate" ∉ ["time", "load", "cpu usage", "date", "ipv6"]
    ∧ noSettings ⟨[("ddate", [])], ["ddate"], [], ["ddate"]⟩ "ddate" = true
    ∧ "ddate" ∈ (CleanCfg.order ⟨[("ddate", [])], ["ddate"], [], ["ddate"]⟩)
    ∧ cleanupPass ⟨[("ddate", [])], ["ddate"], [], ["ddate"]⟩
        = .ok ⟨[("ddate", [])], ["ddate"], [], ["ddate"]⟩ := by
  decide

/-- C6 (amended): the cleanup pass completes without error on a config
satisfying the reader's invariants (unique keys and lists, the two lists
disjoint, every listed name owning a settings dict), and removes every
native entry that carries no explicit settings and whose base name is
not in the always-kept set `{time, load, cpu_usage, ddate, ipv6}`
(equivalently, that passes `valid_config_param` in cleanup mode) from
`order`, from `.group_extras` and from `i3s_modules`; hence no order
line for it is emitted. -/
theorem C6_cleanup_removes (c : CleanCfg) (n : String)
    (hvalid : valid_config_param n true = true)
    (hempty : noSettings c n = true)
    (hsetnd : (c.settings.map Prod.fst).Nodup)
    (hordnd : c.order.Nodup) (hexnd : c.group_extras.Nodup)
    (hi3snd : c.i3s_modules.Nodup)
    (hdisj : ∀ m ∈ c.order, m ∉ c.group_extras)
    (hkeysO : ∀ m ∈ c.order, (pyGet c.settings m).isSome = true)
    (hkeysX : ∀ m ∈ c.group_extras, (pyGet c.settings m).isSome = true)
    (hmem : n ∈ c.order ∨ n ∈ c.group_extras) :
    ∃ c', cleanupPass c = .ok c'
      ∧ n ∉ c'.order ∧ n ∉ c'.group_extras ∧ n ∉ c'.i3s_modules
      ∧ orderChunk n ∉ emitItemChunks
          ("i3s_modules", CEntry.names c'.i3s_modules) := by
  obtain ⟨c1, hfold1, f1, f2, f3, f4, f5, f6, f7, f8, f9, f10, f11,
    f12⟩ := cleanFoldE true n c.order c hordnd hkeysO hsetnd hordnd
    hexnd hi3snd
  have hex1 : c1.group_extras = c.group_extras := f10 rfl
  have hkeys2 : ∀ m ∈ c1.group_extras,
      (pyGet c1.settings m).isSome = true := by
    intro m hm
    rw [hex1] at hm
    have hmo : m ∉ c.order := fun hh => hdisj m hh hm
    rw [f1 m hmo]
    exact hkeysX m hm
  have hxnd1 : c1.group_extras.Nodup := f8
  obtain ⟨c2, hfold2, g1, g2, g3, g4, g5, g6, g7, g8, g9, g10, g11,
    g12⟩ := cleanFoldE false n c1.group_extras c1 hxnd1 hkeys2 f2 f7
    hxnd1 f9
  have hpass : cleanupPass c = .ok c2 := by
    unfold cleanupPass clean_i3status_modules
    simp only [if_true, ite_true, Bool.false_eq_true, if_false,
      ite_false]
    rw [hfold1, except_bind_ok, hfold2]
  have hmain : n ∉ c2.order ∧ n ∉ c2.group_extras
      ∧ n ∉ c2.i3s_modules := by
    rcases hmem with hino | hinx
    · obtain ⟨r1, _, r3⟩ := f12 hvalid hempty hino
      have hn1o : n ∉ c1.order := r1 rfl
      have hn1x : n ∉ c1.group_extras := by
        rw [hex1]
        exact hdisj n hino
      refine ⟨?_, g5 hn1x, g6 r3⟩
      rw [g11 rfl]
      exact hn1o
    · have hnino : n ∉ c.order := by
        intro hh
        exact hdisj n hh hinx
      have hn1o : n ∉ c1.order := f4 hnino
      have hn1x : n ∈ c1.group_extras := by
        rw [hex1]
        exact hinx
      obtain ⟨_, r2, r3⟩ := g12 hvalid (f3 hempty) hn1x
      refine ⟨?_, r2 rfl, r3⟩
      rw [g11 rfl]
      exact hn1o
  obtain ⟨m1, m2, m3⟩ := hmain
  refine ⟨c2, hpass, m1, m2, m3, ?_⟩
  intro hmm
  rw [emitItemChunks_i3s] at hmm
  rcases List.mem_append.mp hmm with h | h
  · obtain ⟨x, hx, hxeq⟩ := List.mem_map.mp h
    have hxn : x = n := orderChunk_inj hxeq
    subst hxn
    exact m3 (List.mem_filter.mp hx).1
  · have h := List.mem_singleton.mp h
    have h5 : (orderChunk n).data.head? = ("\n" : String).data.head? := by
      rw [h]
    rw [orderChunk_head] at h5
    exact absurd h5 (by decide)

/-- Witness for C6: a settings-less `battery 0` entry is fully removed. -/
theorem C6_cleanup_removes_witness :
    ∃ c', cleanupPass ⟨[("battery 0", [])], ["battery 0"], [],
        ["battery 0"]⟩ = .ok c'
      ∧ "battery 0" ∉ c'.order
      ∧ "battery 0" ∉ c'.group_extras
      ∧ "battery 0" ∉ c'.i3s_modules
      ∧ orderChunk "battery 0" ∉ emitItemChunks
          ("i3s_modules", CEntry.names c'.i3s_modules) :=
  C6_cleanup_removes ⟨[("battery 0", [])], ["battery 0"], [],
      ["battery 0"]⟩ "battery 0" (by decide) (by decide) (by decide)
    (by decide) (by decide) (by decide) (by decide) (by decide)
    (by decide) (Or.inl (by decide))

end Py3status
